import Mathlib

/-!
Shallow embedding of the vehicle controller (`src/js/TruckController.js`),
the orbit camera (`src/js/CameraController.js`) and the input latch of the
browser-based 3D racing game, together with proofs of the behavioural
properties claimed about them.  JavaScript numbers are modelled as real
numbers; per-frame mutation is modelled as explicit state passing.
-/

open Filter Topology

/-- A 3-component vector, the model of `THREE.Vector3`. -/
@[ext]
structure Vec3 where
  x : ℝ
  y : ℝ
  z : ℝ

/-- `THREE.MathUtils.clamp(value, min, max) = Math.max(min, Math.min(max, value))`. -/
noncomputable def clamp (value lo hi : ℝ) : ℝ := max lo (min hi value)

/-- `this.maxSpeed = 0.5` in the `TruckController` constructor. -/
def maxSpeed : ℝ := 0.5

/-- `this.acceleration = 0.01`. -/
def acceleration : ℝ := 0.01

/-- `this.braking = 0.02`. -/
def braking : ℝ := 0.02

/-- `this.friction = 0.98`. -/
def friction : ℝ := 0.98

/-- `this.turnSpeed = 0.03`. -/
def turnSpeed : ℝ := 0.03

/-- The latched control intents `this.controls` of `TruckController`. -/
structure Controls where
  gas : Bool
  brake : Bool
  left : Bool
  right : Bool

/-- All intents inactive (the constructor / `reset()` value of `this.controls`). -/
def noControls : Controls := ⟨false, false, false, false⟩

/-- Only the accelerate intent active. -/
def gasOnly : Controls := ⟨true, false, false, false⟩

/-- Only the brake intent active. -/
def brakeOnly : Controls := ⟨false, true, false, false⟩

/-- The mutable physics state of `TruckController`: `this.position`,
`this.velocity`, `this.rotation` (heading, radians) and `this.speed`. -/
@[ext]
structure TruckState where
  pos : Vec3
  vel : Vec3
  rot : ℝ
  speed : ℝ

/-- The constructor state: position and velocity at the origin, heading 0, speed 0. -/
def initTruck : TruckState := ⟨⟨0, 0, 0⟩, ⟨0, 0, 0⟩, 0, 0⟩

/-- `reset()` of `TruckController`: restores position, velocity, rotation and
speed to the constructor values (it ignores the state it is called on). -/
noncomputable def resetTruck (_st : TruckState) : TruckState := ⟨⟨0, 0, 0⟩, ⟨0, 0, 0⟩, 0, 0⟩

/-- The longitudinal step of `update`: gas adds `acceleration`, else brake
subtracts `braking`, else speed decays by `friction`; the result is clamped to
`[-maxSpeed * 0.5, maxSpeed]`. -/
noncomputable def speedStep (c : Controls) (s : ℝ) : ℝ :=
  clamp (if c.gas then s + acceleration else if c.brake then s - braking else s * friction)
    (-(maxSpeed * 0.5)) maxSpeed

/-- `const turnDirection = this.speed > 0 ? 1 : -1`. -/
noncomputable def turnDirection (s : ℝ) : ℝ := if 0 < s then 1 else -1

/-- The steering step of `update`, applied to the already-updated speed `s`:
only active when `Math.abs(speed) > 0.01`; left adds and right subtracts
`turnSpeed * |s| / maxSpeed * turnDirection s` from the heading. -/
noncomputable def rotStep (c : Controls) (s r : ℝ) : ℝ :=
  if 0.01 < |s| then
    (if c.right then
       (if c.left then r + turnSpeed * |s| / maxSpeed * turnDirection s else r) -
         turnSpeed * |s| / maxSpeed * turnDirection s
     else
       (if c.left then r + turnSpeed * |s| / maxSpeed * turnDirection s else r))
  else r

/-- One call of `TruckController.update(deltaTime)`: longitudinal dynamics and
speed clamp, steering, velocity from heading and speed (only `x` and `z` are
written), `position.add(velocity)`, and the lane clamp of `position.x` to
`[-3, 3]`.  The `deltaTime` argument is accepted but never read, exactly as in
the source. -/
noncomputable def updateTruck (deltaTime : ℝ) (c : Controls) (st : TruckState) : TruckState :=
  let s := speedStep c st.speed
  let r := rotStep c s st.rot
  let v : Vec3 := ⟨Real.sin r * s, st.vel.y, Real.cos r * s⟩
  let p : Vec3 := ⟨clamp (st.pos.x + v.x) (-3) 3, st.pos.y + v.y, st.pos.z + v.z⟩
  ⟨p, v, r, s⟩

/-- Run `update` once per entry of `inputs`, each entry giving that frame's
`deltaTime` and the latched controls, starting from the constructor state. -/
noncomputable def runTruck (inputs : List (ℝ × Controls)) : TruckState :=
  inputs.foldl (fun st i => updateTruck i.1 i.2 st) initTruck

/-- `n` longitudinal steps under a fixed intent, starting from speed `s`. -/
noncomputable def speedIter (c : Controls) : ℕ → ℝ → ℝ
  | 0, s => s
  | n + 1, s => speedStep c (speedIter c n s)

/-- `steerInput`: the net steer direction encoded by the left/right intents,
`+1` for left, `-1` for right, `0` for neither or both. -/
noncomputable def steerInput (c : Controls) : ℝ :=
  (if c.left then 1 else 0) - (if c.right then 1 else 0)

/-- Only the steer-left intent active. -/
def leftOnly : Controls := ⟨false, false, true, false⟩

/-- Both steer intents active at once. -/
def bothSteer : Controls := ⟨false, false, true, true⟩

/-- A concrete state moving forward at full speed, used in concrete runs. -/
noncomputable def cruiseState : TruckState := ⟨⟨0, 0, 0⟩, ⟨0, 0, 0⟩, 0, 1 / 2⟩

/-! ### Orbit camera (`CameraController.js`) -/

/-- `this.minAngleV = 0.1`. -/
def minAngleV : ℝ := 0.1

/-- `this.maxAngleV = Math.PI / 3`. -/
noncomputable def maxAngleV : ℝ := Real.pi / 3

/-- `this.sensitivity = 0.003`. -/
def sensitivity : ℝ := 0.003

/-- The mutable state of `CameraController`: the drag-session booleans, the
last mouse / touch coordinates, the orbit angles and the zoom distance. -/
structure CamState where
  isRotating : Bool
  lastX : ℝ
  lastY : ℝ
  isTouchRotating : Bool
  touchStartX : ℝ
  touchStartY : ℝ
  angleH : ℝ
  angleV : ℝ
  distance : ℝ

/-- The `CameraController` constructor state: `distance = 15`, `angleH = 0`,
`angleV = 0.3`, no drag session. -/
noncomputable def initCam : CamState := ⟨false, 0, 0, false, 0, 0, 0, 0.3, 15⟩

/-- The input events handled by `CameraController.setupControls`. -/
inductive CamEvent where
  | mouseDown (button : ℕ) (cx cy : ℝ)
  | mouseMove (cx cy : ℝ)
  | mouseUp (button : ℕ)
  | touchStart (numTouches : ℕ) (cx cy : ℝ)
  | touchMove (numTouches : ℕ) (cx cy : ℝ)
  | touchEnd (numTouches : ℕ)
  | wheel (deltaY : ℝ)
  | resetCam

/-- The event handlers of `CameraController.setupControls`, plus `reset()`:
right-button `mousedown` opens a mouse drag session; `mousemove` inside a
session applies the deltas and clamps `angleV` to `[minAngleV, maxAngleV]`
immediately; two-finger `touchstart` opens a touch session with the same
clamped delta handling on `touchmove`; `wheel` zooms with `distance` clamped
to `[5, 30]`; `reset()` restores `angleH = 0`, `angleV = 0.3`. -/
noncomputable def camStep (e : CamEvent) (s : CamState) : CamState :=
  match e with
  | .mouseDown b cx cy =>
      if b = 2 then { s with isRotating := true, lastX := cx, lastY := cy } else s
  | .mouseMove cx cy =>
      if s.isRotating then
        { s with
          angleH := s.angleH - (cx - s.lastX) * sensitivity,
          angleV := max minAngleV (min maxAngleV (s.angleV + (cy - s.lastY) * sensitivity)),
          lastX := cx, lastY := cy }
      else s
  | .mouseUp b => if b = 2 then { s with isRotating := false } else s
  | .touchStart n cx cy =>
      if n = 2 then { s with isTouchRotating := true, touchStartX := cx, touchStartY := cy }
      else s
  | .touchMove n cx cy =>
      if s.isTouchRotating ∧ n = 2 then
        { s with
          angleH := s.angleH - (cx - s.touchStartX) * sensitivity,
          angleV := max minAngleV (min maxAngleV (s.angleV + (cy - s.touchStartY) * sensitivity)),
          touchStartX := cx, touchStartY := cy }
      else s
  | .touchEnd n => if n < 2 then { s with isTouchRotating := false } else s
  | .wheel dy => { s with distance := max 5 (min 30 (s.distance + dy * 0.01)) }
  | .resetCam => { s with angleH := 0, angleV := 0.3 }

/-- Run a sequence of camera input events from the constructor state. -/
noncomputable def camRun (es : List CamEvent) : CamState :=
  es.foldl (fun s e => camStep e s) initCam

/-- The target camera position computed by `CameraController.update`: the
vehicle position shifted by `-offsetX`, `+offsetY`, `-offsetZ` with
`totalAngle = targetRotation + angleH`. -/
noncomputable def camTarget (s : CamState) (targetPosition : Vec3) (targetRotation : ℝ) : Vec3 :=
  ⟨targetPosition.x - Real.sin (targetRotation + s.angleH) * s.distance * Real.cos s.angleV,
   targetPosition.y + s.distance * Real.sin s.angleV,
   targetPosition.z - Real.cos (targetRotation + s.angleH) * s.distance * Real.cos s.angleV⟩

/-- `THREE.Vector3.lerp(v, alpha)`: each component moves by `alpha` times its
distance to the corresponding component of `v`. -/
noncomputable def lerpVec (a v : Vec3) (alpha : ℝ) : Vec3 :=
  ⟨a.x + (v.x - a.x) * alpha, a.y + (v.y - a.y) * alpha, a.z + (v.z - a.z) * alpha⟩

/-- `CameraController.update(targetPosition, targetRotation)` as a function of
the current camera position: `camera.position.lerp(targetCameraPos, 0.1)`. -/
noncomputable def camUpdate (s : CamState) (camPos : Vec3) (tp : Vec3) (tr : ℝ) : Vec3 :=
  lerpVec camPos (camTarget s tp tr) 0.1

/-- Euclidean distance between two points. -/
noncomputable def dist3 (a b : Vec3) : ℝ :=
  Real.sqrt ((a.x - b.x) ^ 2 + (a.y - b.y) ^ 2 + (a.z - b.z) ^ 2)

/-! ### Input latch (intent booleans of `TruckController`) -/

/-- One intent's latch, observed together with its physical input sources.
`flag` is the single boolean `this.controls[controlName]` of the source code;
`keyHeld`, `touchHeld` and `mouseHeld` are the environment's record of which
bound sources (keyboard key, touch button press, mouse button press) are
physically active, needed to state the specification's claim about sources. -/
structure LatchState where
  keyHeld : Bool
  touchHeld : Bool
  mouseHeld : Bool
  flag : Bool

/-- The press and release events of the bound sources for one intent. -/
inductive LatchEvent where
  | pressKey
  | releaseKey
  | pressTouch
  | releaseTouch
  | pressMouse
  | releaseMouse
  | leaveMouse

/-- The handlers installed by `setupControls` / `addButtonListeners` for one
intent: `keydown`, `touchstart` and `mousedown` set the shared flag;
`keyup`, `touchend`, `mouseup` and `mouseleave` clear it.  Each event also
updates the environment's record of its own source. -/
def latchStep (s : LatchState) (e : LatchEvent) : LatchState :=
  match e with
  | .pressKey => { s with keyHeld := true, flag := true }
  | .releaseKey => { s with keyHeld := false, flag := false }
  | .pressTouch => { s with touchHeld := true, flag := true }
  | .releaseTouch => { s with touchHeld := false, flag := false }
  | .pressMouse => { s with mouseHeld := true, flag := true }
  | .releaseMouse => { s with mouseHeld := false, flag := false }
  | .leaveMouse => { s with mouseHeld := false, flag := false }

/-- Initially no source is active and the intent flag is false. -/
def initLatch : LatchState := ⟨false, false, false, false⟩

/-- Run a sequence of input events for one intent from the initial state. -/
def latchRun (es : List LatchEvent) : LatchState := es.foldl latchStep initLatch

/-- Whether at least one bound source is currently active. -/
def anySourceActive (s : LatchState) : Bool := s.keyHeld || s.touchHeld || s.mouseHeld

/-- Whether an event is a press of one of the bound sources. -/
def isPress (e : LatchEvent) : Bool :=
  match e with
  | .pressKey => true
  | .pressTouch => true
  | .pressMouse => true
  | _ => false

/-! ### Clamp lemmas -/

theorem le_clamp (value lo hi : ℝ) : lo ≤ clamp value lo hi := le_max_left _ _

theorem clamp_le {lo hi : ℝ} (h : lo ≤ hi) (value : ℝ) : clamp value lo hi ≤ hi :=
  max_le h (min_le_left _ _)

theorem clamp_eq_self {value lo hi : ℝ} (h1 : lo ≤ value) (h2 : value ≤ hi) :
    clamp value lo hi = value := by
  unfold clamp
  rw [min_eq_right h2, max_eq_right h1]

theorem abs_clamp_le {lo hi : ℝ} (h1 : lo ≤ 0) (h2 : 0 ≤ hi) (value : ℝ) :
    |clamp value lo hi| ≤ |value| := by
  unfold clamp
  apply abs_le.mpr
  constructor
  · refine le_trans (le_min ?_ (neg_abs_le value)) (le_max_right _ _)
    exact le_trans (neg_nonpos_of_nonneg (abs_nonneg value)) h2
  · exact max_le (h1.trans (abs_nonneg value)) ((min_le_right _ _).trans (le_abs_self value))

/-! ### Constant values -/

theorem maxSpeed_val : maxSpeed = 1 / 2 := by norm_num [maxSpeed]

theorem acceleration_val : acceleration = 1 / 100 := by norm_num [acceleration]

theorem braking_val : braking = 1 / 50 := by norm_num [braking]

theorem friction_val : friction = 49 / 50 := by norm_num [friction]

theorem reverseCap_val : -(maxSpeed * 0.5) = -(1 / 4) := by norm_num [maxSpeed]

/-! ### Projections of one update step -/

theorem updateTruck_speed (deltaTime : ℝ) (c : Controls) (st : TruckState) :
    (updateTruck deltaTime c st).speed = speedStep c st.speed := rfl

theorem updateTruck_rot (deltaTime : ℝ) (c : Controls) (st : TruckState) :
    (updateTruck deltaTime c st).rot = rotStep c (speedStep c st.speed) st.rot := rfl

theorem updateTruck_pos_x (deltaTime : ℝ) (c : Controls) (st : TruckState) :
    (updateTruck deltaTime c st).pos.x =
      clamp (st.pos.x +
        Real.sin (rotStep c (speedStep c st.speed) st.rot) * speedStep c st.speed) (-3) 3 := rfl

theorem updateTruck_vel_y (deltaTime : ℝ) (c : Controls) (st : TruckState) :
    (updateTruck deltaTime c st).vel.y = st.vel.y := rfl

theorem updateTruck_pos_y (deltaTime : ℝ) (c : Controls) (st : TruckState) :
    (updateTruck deltaTime c st).pos.y = st.pos.y + st.vel.y := rfl

/-! ### Longitudinal dynamics lemmas -/

theorem speedStep_gas (s : ℝ) :
    speedStep gasOnly s = clamp (s + acceleration) (-(maxSpeed * 0.5)) maxSpeed := by
  simp [speedStep, gasOnly]

theorem speedStep_brake (s : ℝ) :
    speedStep brakeOnly s = clamp (s - braking) (-(maxSpeed * 0.5)) maxSpeed := by
  simp [speedStep, brakeOnly]

theorem speedStep_coast (s : ℝ) :
    speedStep noControls s = clamp (s * friction) (-(maxSpeed * 0.5)) maxSpeed := by
  simp [speedStep, noControls]

theorem speedStep_mem (c : Controls) (s : ℝ) :
    -(maxSpeed * 0.5) ≤ speedStep c s ∧ speedStep c s ≤ maxSpeed := by
  refine ⟨le_clamp _ _ _, clamp_le ?_ _⟩
  norm_num [maxSpeed]

theorem brake_closed_form (n : ℕ) :
    speedIter brakeOnly n 0 = max (-(maxSpeed * 0.5)) (-((n : ℝ) * braking)) := by
  induction n with
  | zero =>
    rw [speedIter, eq_comm, Nat.cast_zero, zero_mul, neg_zero, max_eq_right]
    rw [reverseCap_val]; norm_num
  | succ n ih =>
    rw [speedIter, ih, speedStep_brake, clamp, reverseCap_val, braking_val]
    have hmax : max (-(1 / 4)) (-((n : ℝ) * (1 / 50))) ≤ 0 :=
      max_le (by norm_num) (neg_nonpos.mpr (by positivity))
    have hle : max (-(1 / 4)) (-((n : ℝ) * (1 / 50))) - 1 / 50 ≤ maxSpeed := by
      rw [maxSpeed_val]; linarith
    rw [min_eq_right hle]
    rcases le_total (-(1 / 4) : ℝ) (-((n : ℝ) * (1 / 50))) with h | h
    · rw [max_eq_right h]
      congr 1
      push_cast; ring
    · rw [max_eq_left h]
      have h2 : (-(1 / 4) : ℝ) - 1 / 50 ≤ -(1 / 4) := by norm_num
      have h3 : -((↑(n + 1) : ℝ) * (1 / 50)) ≤ -(1 / 4) := by push_cast; linarith
      rw [max_eq_left h2, max_eq_left h3]

theorem gas_closed_form (n : ℕ) :
    speedIter gasOnly n 0 = min ((n : ℝ) * acceleration) maxSpeed := by
  induction n with
  | zero =>
    rw [speedIter, eq_comm, Nat.cast_zero, zero_mul, min_eq_left]
    rw [maxSpeed_val]; norm_num
  | succ n ih =>
    rw [speedIter, ih, speedStep_gas, clamp, reverseCap_val, acceleration_val, maxSpeed_val]
    have hmin : (0 : ℝ) ≤ min ((n : ℝ) * (1 / 100)) (1 / 2) :=
      le_min (mul_nonneg (Nat.cast_nonneg n) (by norm_num)) (by norm_num)
    have hX : (-(1 / 4) : ℝ) ≤ min (1 / 2) (min ((n : ℝ) * (1 / 100)) (1 / 2) + 1 / 100) :=
      le_min (by norm_num) (by linarith)
    rw [max_eq_right hX]
    rcases le_total ((n : ℝ) * (1 / 100)) (1 / 2) with h | h
    · rw [min_eq_left h, min_comm (1 / 2 : ℝ) ((n : ℝ) * (1 / 100) + 1 / 100)]
      congr 1
      push_cast; ring
    · rw [min_eq_right h]
      have h2 : ((1 : ℝ) / 2) ≤ 1 / 2 + 1 / 100 := by norm_num
      have h3 : (1 / 2 : ℝ) ≤ (↑(n + 1) : ℝ) * (1 / 100) := by push_cast; linarith
      rw [min_eq_left h2, min_eq_right h3]

/-- C1: after every `update(dt)` call, whatever the intents and the prior state,
the scalar speed lies in `[-maxSpeed * 0.5, maxSpeed]`; holding only brake from
rest yields speed `max (-(maxSpeed * 0.5)) (-(n * braking))` after `n` updates,
a sequence that decreases monotonically toward `-maxSpeed * 0.5` and never
passes it. -/
theorem C1_speed_invariant :
    (∀ (deltaTime : ℝ) (c : Controls) (st : TruckState),
        -(maxSpeed * 0.5) ≤ (updateTruck deltaTime c st).speed ∧
          (updateTruck deltaTime c st).speed ≤ maxSpeed) ∧
    (∀ n : ℕ, speedIter brakeOnly n 0 = max (-(maxSpeed * 0.5)) (-((n : ℝ) * braking))) ∧
    (∀ n : ℕ, speedIter brakeOnly (n + 1) 0 ≤ speedIter brakeOnly n 0) ∧
    (∀ n : ℕ, -(maxSpeed * 0.5) ≤ speedIter brakeOnly n 0) := by
  refine ⟨fun deltaTime c st => ?_, brake_closed_form, fun n => ?_, fun n => ?_⟩
  · rw [updateTruck_speed]; exact speedStep_mem c st.speed
  · rw [brake_closed_form, brake_closed_form]
    apply max_le_max (le_refl _)
    push_cast
    have : (0 : ℝ) ≤ braking := by rw [braking_val]; norm_num
    nlinarith
  · rw [brake_closed_form]; exact le_max_left _ _

/-- C5: after every `update(dt)` call, whatever the input and starting state,
`position.x` lies in `[-3, 3]`: the lane clamp is applied after integration. -/
theorem C5_lane_clamp :
    ∀ (deltaTime : ℝ) (c : Controls) (st : TruckState),
      -3 ≤ (updateTruck deltaTime c st).pos.x ∧ (updateTruck deltaTime c st).pos.x ≤ 3 := by
  intro deltaTime c st
  rw [updateTruck_pos_x]
  exact ⟨le_clamp _ _ _, clamp_le (by norm_num) _⟩

/-- C8: from rest with only the accelerate intent held, speed after `n` updates
is exactly `min (n * acceleration) maxSpeed`; with `acceleration = 0.01` and
`maxSpeed = 0.5` the speed equals `maxSpeed` at the 50th update and at every
update thereafter. -/
theorem C8_gas_saturation :
    (∀ n : ℕ, speedIter gasOnly n 0 = min ((n : ℝ) * acceleration) maxSpeed) ∧
    speedIter gasOnly 50 0 = maxSpeed ∧
    (∀ n : ℕ, 50 ≤ n → speedIter gasOnly n 0 = maxSpeed) := by
  have h50 : ∀ n : ℕ, 50 ≤ n → speedIter gasOnly n 0 = maxSpeed := by
    intro n hn
    rw [gas_closed_form, min_eq_right]
    rw [acceleration_val, maxSpeed_val]
    have : (50 : ℝ) ≤ (n : ℝ) := by exact_mod_cast hn
    linarith
  exact ⟨gas_closed_form, h50 50 (le_refl _), h50⟩

/-- Witness for C8 at the concrete tick 60. -/
theorem C8_gas_saturation_witness :
    (50 : ℕ) ≤ 60 ∧ speedIter gasOnly 60 0 = maxSpeed :=
  ⟨by norm_num, C8_gas_saturation.2.2 60 (by norm_num)⟩

/-! ### Coasting (no intents) lemmas -/

theorem friction_nonneg : (0 : ℝ) ≤ friction := by rw [friction_val]; norm_num

theorem friction_lt_one : friction < 1 := by rw [friction_val]; norm_num

theorem speedStep_coast_abs (s : ℝ) : |speedStep noControls s| ≤ friction * |s| := by
  rw [speedStep_coast]
  calc |clamp (s * friction) (-(maxSpeed * 0.5)) maxSpeed| ≤ |s * friction| :=
        abs_clamp_le (by rw [reverseCap_val]; norm_num) (by rw [maxSpeed_val]; norm_num) _
    _ = friction * |s| := by
        rw [abs_mul, abs_of_nonneg friction_nonneg, mul_comm]

theorem speedStep_coast_sign (s : ℝ) :
    Real.sign (speedStep noControls s) = Real.sign s := by
  rcases lt_trichotomy s 0 with h | h | h
  · have hy : s * friction < 0 :=
      mul_neg_of_neg_of_pos h (by rw [friction_val]; norm_num)
    have hneg : speedStep noControls s < 0 := by
      rw [speedStep_coast, clamp]
      exact max_lt (by rw [reverseCap_val]; norm_num)
        (lt_of_le_of_lt (min_le_right _ _) hy)
    rw [Real.sign_of_neg hneg, Real.sign_of_neg h]
  · rw [h, speedStep_coast, zero_mul,
      clamp_eq_self (by rw [reverseCap_val]; norm_num) (by rw [maxSpeed_val]; norm_num)]
  · have hy : 0 < s * friction :=
      mul_pos h (by rw [friction_val]; norm_num)
    have hpos : 0 < speedStep noControls s := by
      rw [speedStep_coast, clamp]
      refine lt_of_lt_of_le (lt_min ?_ hy) (le_max_right _ _)
      rw [maxSpeed_val]; norm_num
    rw [Real.sign_of_pos hpos, Real.sign_of_pos h]

theorem speedIter_coast_abs (s : ℝ) (n : ℕ) :
    |speedIter noControls n s| ≤ friction ^ n * |s| := by
  induction n with
  | zero => rw [speedIter, pow_zero, one_mul]
  | succ n ih =>
    rw [speedIter, pow_succ]
    calc |speedStep noControls (speedIter noControls n s)|
        ≤ friction * |speedIter noControls n s| := speedStep_coast_abs _
      _ ≤ friction * (friction ^ n * |s|) :=
          mul_le_mul_of_nonneg_left ih friction_nonneg
      _ = friction ^ n * friction * |s| := by ring

/-- C9: with no intents active, an update multiplies any in-range speed exactly
by `friction`; from every starting speed the magnitude decays by at least the
factor `friction` per step, the sign of the speed is preserved at every step,
and the speed tends to `0`. -/
theorem C9_friction_decay :
    (∀ s : ℝ, -(maxSpeed * 0.5) ≤ s → s ≤ maxSpeed → speedStep noControls s = s * friction) ∧
    (∀ (s : ℝ) (n : ℕ),
      |speedIter noControls (n + 1) s| ≤ friction * |speedIter noControls n s|) ∧
    (∀ (s : ℝ) (n : ℕ), |speedIter noControls (n + 1) s| ≤ |speedIter noControls n s|) ∧
    (∀ (s : ℝ) (n : ℕ), Real.sign (speedIter noControls n s) = Real.sign s) ∧
    (∀ s : ℝ, Tendsto (fun n => speedIter noControls n s) atTop (𝓝 0)) := by
  have hstep : ∀ (s : ℝ) (n : ℕ),
      |speedIter noControls (n + 1) s| ≤ friction * |speedIter noControls n s| := by
    intro s n
    rw [speedIter]
    exact speedStep_coast_abs _
  refine ⟨fun s h1 h2 => ?_, hstep, fun s n => ?_, fun s n => ?_, fun s => ?_⟩
  · rw [speedStep_coast]
    apply clamp_eq_self
    · rw [reverseCap_val, friction_val]
      rw [reverseCap_val] at h1
      nlinarith
    · rw [maxSpeed_val, friction_val]
      rw [maxSpeed_val] at h2
      nlinarith
  · refine le_trans (hstep s n) ?_
    have := abs_nonneg (speedIter noControls n s)
    nlinarith [friction_lt_one, friction_nonneg]
  · induction n with
    | zero => rw [speedIter]
    | succ n ih => rw [speedIter, speedStep_coast_sign, ih]
  · have hf0 := friction_nonneg
    have hf1 := friction_lt_one
    have htend : Tendsto (fun n : ℕ => friction ^ n * |s|) atTop (𝓝 0) := by
      have h := (tendsto_pow_atTop_nhds_zero_of_lt_one hf0 hf1).mul_const |s|
      simpa using h
    exact squeeze_zero_norm
      (fun n => by rw [Real.norm_eq_abs]; exact speedIter_coast_abs s n) htend

/-- Witness for C9 at the concrete in-range speed `1/10`. -/
theorem C9_friction_decay_witness :
    -(maxSpeed * 0.5) ≤ (1 / 10 : ℝ) ∧ (1 / 10 : ℝ) ≤ maxSpeed ∧
      speedStep noControls (1 / 10) = (1 / 10) * friction :=
  ⟨by rw [reverseCap_val]; norm_num, by rw [maxSpeed_val]; norm_num,
    C9_friction_decay.1 (1 / 10) (by rw [reverseCap_val]; norm_num)
      (by rw [maxSpeed_val]; norm_num)⟩

/-! ### Steering lemmas -/

theorem rotStep_of_small {s : ℝ} (c : Controls) (r : ℝ) (h : ¬ 0.01 < |s|) :
    rotStep c s r = r := by
  rw [rotStep, if_neg h]

theorem rotStep_formula {s : ℝ} (c : Controls) (r : ℝ) (h : 0.01 < |s|) :
    rotStep c s r = r + turnSpeed * (|s| / maxSpeed) * Real.sign s * steerInput c := by
  have hne : s ≠ 0 := by
    intro h0
    rw [h0, abs_zero] at h
    norm_num at h
  have hdir : turnDirection s = Real.sign s := by
    rcases hne.lt_or_lt with hneg | hpos
    · rw [turnDirection, if_neg (not_lt.mpr hneg.le), Real.sign_of_neg hneg]
    · rw [turnDirection, if_pos hpos, Real.sign_of_pos hpos]
  rw [rotStep, if_pos h, hdir]
  cases hcl : c.left <;> cases hcr : c.right <;>
    simp only [steerInput, hcl, hcr, Bool.false_eq_true, eq_self_iff_true, if_true,
      if_false] <;>
    ring

/-- C4: heading changes in an update only when the magnitude of the updated
speed exceeds the `0.01` deadzone; a vehicle at rest with no pedal stays at
its heading regardless of the steer intents; when steering is active the
heading increment is `turnSpeed * (|s| / maxSpeed) * sign s * steerInput`, so
both steer intents cancel and reverse motion flips the apparent direction. -/
theorem C4_steering :
    ∀ (deltaTime : ℝ) (c : Controls) (st : TruckState),
      (¬ 0.01 < |speedStep c st.speed| → (updateTruck deltaTime c st).rot = st.rot) ∧
      (st.speed = 0 → c.gas = false → c.brake = false →
        (updateTruck deltaTime c st).rot = st.rot) ∧
      (0.01 < |speedStep c st.speed| →
        (updateTruck deltaTime c st).rot =
          st.rot + turnSpeed * (|speedStep c st.speed| / maxSpeed) *
            Real.sign (speedStep c st.speed) * steerInput c) ∧
      (steerInput c = -1 ∨ steerInput c = 0 ∨ steerInput c = 1) ∧
      (c.left = true → c.right = true → (updateTruck deltaTime c st).rot = st.rot) := by
  intro deltaTime c st
  refine ⟨fun h => ?_, fun h0 hg hb => ?_, fun h => ?_, ?_, fun hl hr => ?_⟩
  · rw [updateTruck_rot, rotStep_of_small c st.rot h]
  · have hz : speedStep c st.speed = 0 := by
      rw [h0, speedStep]
      simp only [hg, hb, Bool.false_eq_true, if_false, zero_mul]
      exact clamp_eq_self (by rw [reverseCap_val]; norm_num) (by rw [maxSpeed_val]; norm_num)
    rw [updateTruck_rot, hz]
    exact rotStep_of_small c st.rot (by norm_num)
  · rw [updateTruck_rot, rotStep_formula c st.rot h]
  · cases hcl : c.left <;> cases hcr : c.right <;>
      simp [steerInput, hcl, hcr]
  · rcases lt_or_le (0.01 : ℝ) |speedStep c st.speed| with h | h
    · rw [updateTruck_rot, rotStep_formula c st.rot h]
      have : steerInput c = 0 := by simp [steerInput, hl, hr]
      rw [this, mul_zero, add_zero]
    · rw [updateTruck_rot, rotStep_of_small c st.rot (not_lt.mpr h)]

theorem speedStep_no_pedal {c : Controls} (h1 : c.gas = false) (h2 : c.brake = false)
    (s : ℝ) : speedStep c s = clamp (s * friction) (-(maxSpeed * 0.5)) maxSpeed := by
  rw [speedStep]
  simp only [h1, h2, Bool.false_eq_true, if_false]

theorem speedStep_zero {c : Controls} (h1 : c.gas = false) (h2 : c.brake = false) :
    speedStep c 0 = 0 := by
  rw [speedStep_no_pedal h1 h2, zero_mul]
  exact clamp_eq_self (by rw [reverseCap_val]; norm_num) (by rw [maxSpeed_val]; norm_num)

theorem speedStep_half {c : Controls} (h1 : c.gas = false) (h2 : c.brake = false) :
    speedStep c (1 / 2) = 49 / 100 := by
  rw [speedStep_no_pedal h1 h2, friction_val,
    show (1 / 2 : ℝ) * (49 / 50) = 49 / 100 by norm_num]
  exact clamp_eq_self (by rw [reverseCap_val]; norm_num) (by rw [maxSpeed_val]; norm_num)

/-- Witness for C4: at rest with no pedal the heading is kept; cruising with
only steer-left active the heading gains the full increment; with both steer
intents the heading is kept. -/
theorem C4_steering_witness :
    (initTruck.speed = 0 ∧ leftOnly.gas = false ∧ leftOnly.brake = false ∧
      (updateTruck 0 leftOnly initTruck).rot = initTruck.rot) ∧
    (0.01 < |speedStep leftOnly cruiseState.speed| ∧
      (updateTruck 0 leftOnly cruiseState).rot =
        cruiseState.rot + turnSpeed * (|speedStep leftOnly cruiseState.speed| / maxSpeed) *
          Real.sign (speedStep leftOnly cruiseState.speed) * steerInput leftOnly) ∧
    (¬ 0.01 < |speedStep leftOnly initTruck.speed| ∧
      (updateTruck 0 leftOnly initTruck).rot = initTruck.rot) ∧
    (bothSteer.left = true ∧ bothSteer.right = true ∧
      (updateTruck 0 bothSteer cruiseState).rot = cruiseState.rot) := by
  have hz : speedStep leftOnly initTruck.speed = 0 := by
    rw [show initTruck.speed = (0 : ℝ) from rfl]
    exact speedStep_zero rfl rfl
  have hnot : ¬ (0.01 : ℝ) < |speedStep leftOnly initTruck.speed| := by
    rw [hz, abs_zero]; norm_num
  have hs : speedStep leftOnly cruiseState.speed = 49 / 100 := by
    rw [show cruiseState.speed = (1 / 2 : ℝ) from rfl]
    exact speedStep_half rfl rfl
  have h3 : (0.01 : ℝ) < |speedStep leftOnly cruiseState.speed| := by
    rw [hs, abs_of_nonneg (by norm_num : (0 : ℝ) ≤ 49 / 100)]
    norm_num
  exact ⟨⟨rfl, rfl, rfl, (C4_steering 0 leftOnly initTruck).2.1 rfl rfl rfl⟩,
    ⟨h3, (C4_steering 0 leftOnly cruiseState).2.2.1 h3⟩,
    ⟨hnot, (C4_steering 0 leftOnly initTruck).1 hnot⟩,
    ⟨rfl, rfl, (C4_steering 0 bothSteer cruiseState).2.2.2.2 rfl rfl⟩⟩

/-- C3 counterexample: at the concrete state cruising forward with no intent
active, `update(0)` changes the speed (friction is applied), so `update(0)` is
not a no-op. -/
theorem C3_counterexample :
    (updateTruck 0 noControls cruiseState).speed ≠ cruiseState.speed := by
  rw [updateTruck_speed,
    show cruiseState.speed = (1 / 2 : ℝ) from rfl, speedStep_half rfl rfl]
  norm_num

/-- C3 amended: `update` never reads `deltaTime`, so `update(0)` behaves
exactly like an update at any other `deltaTime`; it leaves the state unchanged
only in special states, for instance at rest with no pedal intent, zero
velocity and `position.x` inside the lane. -/
theorem C3_update_ignores_dt :
    (∀ (dt1 dt2 : ℝ) (c : Controls) (st : TruckState),
        updateTruck dt1 c st = updateTruck dt2 c st) ∧
    (∀ (dt : ℝ) (c : Controls) (st : TruckState),
        c.gas = false → c.brake = false → st.speed = 0 → st.vel = ⟨0, 0, 0⟩ →
        -3 ≤ st.pos.x → st.pos.x ≤ 3 → updateTruck dt c st = st) := by
  constructor
  · intro dt1 dt2 c st
    rfl
  · intro dt c st hg hb hs hv hx1 hx2
    have hz0 : speedStep c 0 = 0 := speedStep_zero hg hb
    have hr0 : rotStep c 0 st.rot = st.rot :=
      rotStep_of_small c st.rot (by rw [abs_zero]; norm_num)
    have hvy : st.vel.y = 0 := by rw [hv]
    ext <;>
      simp [updateTruck, hz0, hr0, hvy, hv, hs, clamp_eq_self hx1 hx2]

/-- Witness for C3's amended statement at the constructor state with the
steer-left intent and a nonzero `deltaTime`. -/
theorem C3_update_ignores_dt_witness :
    leftOnly.gas = false ∧ leftOnly.brake = false ∧ initTruck.speed = 0 ∧
      initTruck.vel = ⟨0, 0, 0⟩ ∧ -3 ≤ initTruck.pos.x ∧ initTruck.pos.x ≤ 3 ∧
      updateTruck 7 leftOnly initTruck = initTruck :=
  ⟨rfl, rfl, rfl, rfl, by norm_num [initTruck], by norm_num [initTruck],
    C3_update_ignores_dt.2 7 leftOnly initTruck rfl rfl rfl rfl
      (by norm_num [initTruck]) (by norm_num [initTruck])⟩

/-! ### Ground-plane invariant -/

theorem ground_foldl (inputs : List (ℝ × Controls)) :
    ∀ st : TruckState, st.pos.y = 0 → st.vel.y = 0 →
      (inputs.foldl (fun st i => updateTruck i.1 i.2 st) st).pos.y = 0 ∧
        (inputs.foldl (fun st i => updateTruck i.1 i.2 st) st).vel.y = 0 := by
  induction inputs with
  | nil => exact fun st h1 h2 => ⟨h1, h2⟩
  | cons i rest ih =>
    intro st h1 h2
    rw [List.foldl_cons]
    exact ih _ (by rw [updateTruck_pos_y, h1, h2, add_zero]) (by rw [updateTruck_vel_y]; exact h2)

/-- C10: `position.y` and `velocity.y` are `0` at construction, after every
sequence of `update(dt)` calls whatever the intents, and after `reset()`:
`update` only ever writes the `x` and `z` velocity components. -/
theorem C10_ground_plane :
    initTruck.pos.y = 0 ∧ initTruck.vel.y = 0 ∧
    (∀ inputs : List (ℝ × Controls),
      (runTruck inputs).pos.y = 0 ∧ (runTruck inputs).vel.y = 0) ∧
    (∀ st : TruckState, (resetTruck st).pos.y = 0 ∧ (resetTruck st).vel.y = 0) := by
  refine ⟨rfl, rfl, fun inputs => ?_, fun st => ⟨rfl, rfl⟩⟩
  exact ground_foldl inputs initTruck rfl rfl

/-! ### Input latch: one shared flag per intent -/

/-- C2 counterexample: hold the keyboard key, press the touch button, then
release only the touch button.  The keyboard source is still active (and so
`anySourceActive` is true), yet the latched intent flag is false, because all
sources write the one shared boolean `this.controls[controlName]`. -/
theorem C2_counterexample :
    (latchRun [LatchEvent.pressKey, LatchEvent.pressTouch, LatchEvent.releaseTouch]).keyHeld
        = true ∧
    anySourceActive
        (latchRun [LatchEvent.pressKey, LatchEvent.pressTouch, LatchEvent.releaseTouch]) = true ∧
    (latchRun [LatchEvent.pressKey, LatchEvent.pressTouch, LatchEvent.releaseTouch]).flag
        = false ∧
    ¬ ((latchRun [LatchEvent.pressKey, LatchEvent.pressTouch, LatchEvent.releaseTouch]).flag
        = anySourceActive
            (latchRun [LatchEvent.pressKey, LatchEvent.pressTouch, LatchEvent.releaseTouch])) := by
  decide

/-- C2 amended: each intent is one shared boolean, not a per-source latch:
after any event sequence the intent equals whether the most recent bound event
was a press, so releasing one source clears the intent even while another
source is still held. -/
theorem C2_shared_flag :
    ∀ (es : List LatchEvent) (e : LatchEvent),
      (latchRun (es ++ [e])).flag = isPress e := by
  intro es e
  rw [latchRun, List.foldl_append, List.foldl_cons, List.foldl_nil]
  cases e <;> rfl

/-! ### Camera vertical-angle invariant -/

theorem minAngleV_le_maxAngleV : minAngleV ≤ maxAngleV := by
  have h := Real.pi_gt_three
  rw [minAngleV, maxAngleV]
  norm_num
  linarith

theorem initAngleV_mem : minAngleV ≤ (0.3 : ℝ) ∧ (0.3 : ℝ) ≤ maxAngleV := by
  have h := Real.pi_gt_three
  rw [minAngleV, maxAngleV]
  constructor <;> [norm_num; linarith]

theorem camStep_angleV_bounds (e : CamEvent) (s : CamState)
    (h1 : minAngleV ≤ s.angleV) (h2 : s.angleV ≤ maxAngleV) :
    minAngleV ≤ (camStep e s).angleV ∧ (camStep e s).angleV ≤ maxAngleV := by
  cases e with
  | mouseDown b cx cy =>
    simp only [camStep]
    split_ifs <;> exact ⟨h1, h2⟩
  | mouseMove cx cy =>
    simp only [camStep]
    split_ifs
    · exact ⟨le_max_left _ _, max_le minAngleV_le_maxAngleV (min_le_left _ _)⟩
    · exact ⟨h1, h2⟩
  | mouseUp b =>
    simp only [camStep]
    split_ifs <;> exact ⟨h1, h2⟩
  | touchStart n cx cy =>
    simp only [camStep]
    split_ifs <;> exact ⟨h1, h2⟩
  | touchMove n cx cy =>
    simp only [camStep]
    split_ifs
    · exact ⟨le_max_left _ _, max_le minAngleV_le_maxAngleV (min_le_left _ _)⟩
    · exact ⟨h1, h2⟩
  | touchEnd n =>
    simp only [camStep]
    split_ifs <;> exact ⟨h1, h2⟩
  | wheel dy => exact ⟨h1, h2⟩
  | resetCam => exact initAngleV_mem

theorem camRun_foldl (es : List CamEvent) :
    ∀ s : CamState, minAngleV ≤ s.angleV → s.angleV ≤ maxAngleV →
      minAngleV ≤ (es.foldl (fun s e => camStep e s) s).angleV ∧
        (es.foldl (fun s e => camStep e s) s).angleV ≤ maxAngleV := by
  induction es with
  | nil => exact fun s h1 h2 => ⟨h1, h2⟩
  | cons e rest ih =>
    intro s h1 h2
    rw [List.foldl_cons]
    obtain ⟨g1, g2⟩ := camStep_angleV_bounds e s h1 h2
    exact ih _ g1 g2

/-- C7: after every sequence of camera input events, including drag deltas
that would overshoot either bound, the vertical orbit angle lies in
`[minAngleV, maxAngleV]`; the constructor value `0.3` and the `reset()` value
also lie in that interval. -/
theorem C7_angleV_clamped :
    (∀ es : List CamEvent,
        minAngleV ≤ (camRun es).angleV ∧ (camRun es).angleV ≤ maxAngleV) ∧
    (minAngleV ≤ initCam.angleV ∧ initCam.angleV ≤ maxAngleV) ∧
    (∀ s : CamState,
        minAngleV ≤ (camStep CamEvent.resetCam s).angleV ∧
          (camStep CamEvent.resetCam s).angleV ≤ maxAngleV) := by
  refine ⟨fun es => ?_, initAngleV_mem, fun s => initAngleV_mem⟩
  exact camRun_foldl es initCam initAngleV_mem.1 initAngleV_mem.2

/-! ### Camera follow and smoothing -/

/-- C6: the target camera position equals
`vehiclePosition - distance * cos(angleV) * (sin(total), 0, cos(total)) +
(0, distance * sin(angleV), 0)` with `total = vehicleHeading + angleH`; the
new camera position is the linear interpolation of the old position toward
the target with factor `0.1`, hence lies on the segment between them, and its
distance to the target never increases. -/
theorem C6_camera_follow :
    ∀ (s : CamState) (camPos tp : Vec3) (tr : ℝ),
      camTarget s tp tr =
        ⟨tp.x - s.distance * Real.cos s.angleV * Real.sin (tr + s.angleH),
         tp.y + s.distance * Real.sin s.angleV,
         tp.z - s.distance * Real.cos s.angleV * Real.cos (tr + s.angleH)⟩ ∧
      (∃ t : ℝ, 0 ≤ t ∧ t ≤ 1 ∧
        camUpdate s camPos tp tr = lerpVec camPos (camTarget s tp tr) t) ∧
      dist3 (camUpdate s camPos tp tr) (camTarget s tp tr) ≤
        dist3 camPos (camTarget s tp tr) := by
  intro s camPos tp tr
  refine ⟨?_, ⟨0.1, by norm_num, by norm_num, rfl⟩, ?_⟩
  · unfold camTarget
    ext <;> dsimp <;> ring
  · have key : ∀ u v : ℝ, (u + (v - u) * 0.1 - v) ^ 2 ≤ (u - v) ^ 2 := by
      intro u v
      nlinarith [sq_nonneg (u - v)]
    unfold camUpdate lerpVec dist3
    dsimp
    apply Real.sqrt_le_sqrt
    exact add_le_add (add_le_add (key _ _) (key _ _)) (key _ _)
